import Mathlib

/-!
Verification development for the remerge local storage engine
(components/remerge/src/storage/db.rs, bootstrap.rs, error.rs).

The database state is embedded shallowly: the three tables rec_local,
rec_mirror and remerge_schemas become lists of row structures, the metadata
table becomes a record of its well-known keys, and every operation of
RemergeDb becomes a pure function from a state to an outcome paired with the
state after the transaction. Error outcomes return the original state,
modelling the rollback performed by the owning transaction. Panics used for
detected corruption (negative or overflowing change counter) are a separate
outcome constructor, distinct from returned errors.
-/

namespace Remerge

/-- Errors returned by the storage layer, following error.rs. Variants not
reachable in the modelled fragment are omitted. -/
inductive RError where
  | idNotUnique
  | duplicate
  | noSuchRecord (guid : String)
  | invalidGuid (s : String)
  | schemaNameMatch (native stored : String)
  | schemaParse (msg : String)
  | sqlNoRows
  | sqlConstraint
  | missingMeta (key : String)
  | other (msg : String)
deriving Repr, DecidableEq

/-- Result of an operation: a returned value, a returned typed error, or a
loud abort on detected database corruption (a panic in the source). -/
inductive Outcome (α : Type) where
  | ok (v : α)
  | err (e : RError)
  | corrupt (msg : String)
deriving Repr, DecidableEq

/-- Native records are treated as opaque serialized values; the schema
conversion functions operating on them are parameters of the model. -/
abbrev NativeRecord := String

/-- Local records likewise; the literal written by the SQL when a payload is
cleared is the empty JSON object. -/
abbrev LocalRecord := String

/-- The payload text written when a record is tombstoned. -/
def emptyRecordData : LocalRecord := "\x7b\x7d"

/-- Modelled from the spec: a vector clock maps client ids to counter values
(vclock.rs is not among the sources). Represented as an association list. -/
abbrev VClock := List (String × Int)

/-- Modelled from the spec: apply returns a new clock with the given client
entry set to the given counter. -/
def VClock.apply (vc : VClock) (client : String) (ctr : Int) : VClock :=
  (client, ctr) :: vc.filter (fun p => p.1 != client)

/-- Modelled from the spec: a fresh clock with a single entry. -/
def VClock.new (client : String) (ctr : Int) : VClock :=
  [(client, ctr)]

/-- Modelled from the spec: the numeric codes stored in the sync_status
column. The synced baseline is 0 (the literal used by
clone_mirror_to_overlay in db.rs); Changed and New are strictly greater. -/
def syncedCode : Nat := 0

/-- Code of SyncStatus.Changed. -/
def changedCode : Nat := 1

/-- Code of SyncStatus.New. -/
def newCode : Nat := 2

/-- A row of rec_local. Nullable columns are Options: clone_mirror_to_overlay
inserts no remerge_schema_version, and the tombstone insert of delete_by_id
leaves last_writer_id unbound. -/
structure OverlayRow where
  guid : String
  schema_version : Option String
  record_data : LocalRecord
  local_modified_ms : Int
  is_deleted : Bool
  sync_status : Nat
  vector_clock : VClock
  last_writer_id : Option String
deriving Repr, DecidableEq

/-- A row of rec_mirror. is_overridden is nullable: the queries distinguish
the predicate is_overridden IS NOT 1 from is_overridden = 0. -/
structure MirrorRow where
  guid : String
  record_data : LocalRecord
  vector_clock : VClock
  last_writer_id : String
  is_overridden : Option Bool
deriving Repr, DecidableEq

/-- A row of remerge_schemas; primary key is version. -/
structure SchemaRow where
  is_legacy : Bool
  version : String
  required_version : String
  schema_text : String
deriving Repr, DecidableEq

/-- Modelled from the spec: the metadata key/value table restricted to its
well-known keys (meta.rs is not among the sources); none encodes an absent
key. -/
structure MetaTable where
  collection_name : Option String
  local_schema_version : Option String
  native_schema_version : Option String
  own_client_id : Option String
  change_counter : Option Int
  sync_native_version_threshold : Option String
deriving Repr, DecidableEq

/-- The persisted database state acted on by RemergeDb. -/
structure DbState where
  rec_local : List OverlayRow
  rec_mirror : List MirrorRow
  schemas : List SchemaRow
  meta : MetaTable
deriving Repr, DecidableEq

/-- Modelled from the spec: schema metadata exposed by RecordSchema (the
schema module is not among the sources). Versions are kept as the strings
the storage layer compares and persists. -/
structure RecordSchema where
  name : String
  version : String
  required_version : String
  legacy : Bool
  source : String
deriving Repr, DecidableEq

/-- The schema bundle as returned by bootstrap: collection name plus the
local and native schemas. -/
structure SchemaBundle where
  collection_name : String
  localSchema : RecordSchema
  native : RecordSchema
deriving Repr, DecidableEq

/-- Modelled from the spec: a parsed semver version requirement, abstracted
to its matching predicate (the semver crate is external). -/
structure VersionReq where
  matchesVersion : String → Bool

/-- Modelled from the spec: the record conversions owned by the schema
bundle (bundle.rs is not among the sources). native_to_local returns the
record guid together with the converted local record. -/
structure Conversions where
  native_to_local_creation : NativeRecord → Except RError (String × LocalRecord)
  native_to_local_update : NativeRecord → LocalRecord → Except RError (String × LocalRecord)
  local_to_native : LocalRecord → Except RError NativeRecord
  validate_own_guid : NativeRecord → Except RError String

/-- The in-memory half of RemergeDb: schema bundle data, conversions, the
local client id, and the external semver requirement reader. -/
structure RemergeCtx where
  collection_name : String
  native : RecordSchema
  localSchema : RecordSchema
  conv : Conversions
  client_id : String
  parseReq : String → Option VersionReq

/-- The EXISTS query of RemergeDb.exists: a live overlay row, or a mirror
row whose is_overridden IS NOT 1. -/
def dbExists (s : DbState) (id : String) : Bool :=
  s.rec_local.any (fun r => r.guid == id && !r.is_deleted)
    || s.rec_mirror.any (fun m => m.guid == id && m.is_overridden != some true)

/-- counter_bump: read the global change counter, abort loudly when it is
negative, increment, persist, abort loudly when the increment overflows i64
(the expect on Counter.try_from in the source). -/
def i64Max : Int := 2 ^ 63 - 1

def counter_bump (s : DbState) : Outcome (Int × DbState) :=
  match s.meta.change_counter with
  | none => .err (.missingMeta "change-counter")
  | some ctr =>
    if ctr < 0 then .corrupt "negative global change counter"
    else if i64Max ≤ ctr then .corrupt "i64 overflow"
    else
      .ok (ctr + 1,
        { s with meta := { s.meta with change_counter := some (ctr + 1) } })

/-- get_vclock: first row of the union of the live overlay clock and the
not-overridden mirror clock; no row is a query error. -/
def get_vclock (s : DbState) (id : String) : Outcome VClock :=
  match s.rec_local.find? (fun r => r.guid == id && !r.is_deleted) with
  | some r => .ok r.vector_clock
  | none =>
    match s.rec_mirror.find? (fun m => m.guid == id && m.is_overridden != some true) with
    | some m => .ok m.vector_clock
    | none => .err .sqlNoRows

/-- get_bumped_vclock: combine get_vclock with counter_bump and apply the
local client id at the new counter. -/
def get_bumped_vclock (ctx : RemergeCtx) (s : DbState) (id : String) :
    Outcome (VClock × DbState) :=
  match get_vclock s id with
  | .err e => .err e
  | .corrupt m => .corrupt m
  | .ok vc =>
    match counter_bump s with
    | .err e => .err e
    | .corrupt m => .corrupt m
    | .ok (ctr, s1) => .ok (vc.apply ctx.client_id ctr, s1)

/-- get_local_by_id: the live overlay payload, else the mirror payload when
is_overridden = 0. -/
def get_local_by_id (s : DbState) (id : String) : Option LocalRecord :=
  match s.rec_local.find? (fun r => r.guid == id && !r.is_deleted) with
  | some r => some r.record_data
  | none =>
    (s.rec_mirror.find? (fun m => m.guid == id && m.is_overridden == some false)).map
      (fun m => m.record_data)

/-- get_by_id: get_local_by_id followed by the local-to-native conversion. -/
def get_by_id (ctx : RemergeCtx) (s : DbState) (id : String) :
    Outcome (Option NativeRecord) :=
  match get_local_by_id s id with
  | none => .ok none
  | some v =>
    match ctx.conv.local_to_native v with
    | .ok n => .ok (some n)
    | .error e => .err e

/-- dupe_exists is a stub in the source: no dedupe collision is ever
reported. -/
def dupe_exists (_s : DbState) (_record : LocalRecord) : Bool := false

/-- The overlay row inserted by create. -/
def createRow (ctx : RemergeCtx) (id : String) (record : LocalRecord)
    (now : Int) (ctr : Int) : OverlayRow :=
  { guid := id
    schema_version := some ctx.localSchema.version
    record_data := record
    local_modified_ms := now
    is_deleted := false
    sync_status := newCode
    vector_clock := VClock.new ctx.client_id ctr
    last_writer_id := some ctx.client_id }

/-- create: convert with reason Creation, reject an existing guid with
IdNotUnique, reject dedupe collisions, bump the counter, insert the overlay
row with status New. The plain INSERT fails on a primary-key conflict with a
row invisible to exists (a deleted overlay row). -/
def create (ctx : RemergeCtx) (s : DbState) (native : NativeRecord)
    (now : Int) : Outcome String × DbState :=
  match ctx.conv.native_to_local_creation native with
  | .error e => (.err e, s)
  | .ok (id, record) =>
    if dbExists s id then (.err .idNotUnique, s)
    else if dupe_exists s record then (.err .duplicate, s)
    else
      match counter_bump s with
      | .err e => (.err e, s)
      | .corrupt m => (.corrupt m, s)
      | .ok (ctr, s1) =>
        if s1.rec_local.any (fun r => r.guid == id) then (.err .sqlConstraint, s)
        else (.ok id, { s1 with rec_local := s1.rec_local ++ [createRow ctx id record now ctr] })

/-- The per-row effect of the UPDATE rec_local statement of delete_by_id. -/
def deleteMarkRow (ctx : RemergeCtx) (id : String) (now : Int) (vclock : VClock)
    (r : OverlayRow) : OverlayRow :=
  if r.guid == id then
    { r with
      local_modified_ms := now
      sync_status := changedCode
      is_deleted := true
      record_data := emptyRecordData
      vector_clock := vclock
      last_writer_id := some ctx.client_id }
  else r

/-- The per-row effect of UPDATE rec_mirror SET is_overridden = 1. -/
def overrideMirrorRow (id : String) (m : MirrorRow) : MirrorRow :=
  if m.guid == id then { m with is_overridden := some true } else m

/-- The tombstone overlay row inserted by delete_by_id when no overlay row
existed: cloned from the mirror row's guid. The SQL references an own_id
parameter for last_writer_id but the statement parameters do not bind it,
so the column is inserted NULL. -/
def tombstoneRow (ctx : RemergeCtx) (now : Int) (vclock : VClock)
    (m : MirrorRow) : OverlayRow :=
  { guid := m.guid
    schema_version := some ctx.localSchema.version
    record_data := emptyRecordData
    local_modified_ms := now
    is_deleted := true
    sync_status := changedCode
    vector_clock := vclock
    last_writer_id := none }

/-- delete_by_id: no-op returning false when the record does not exist;
otherwise bump the clock, tombstone every overlay row of the guid, override
the mirror, and insert a tombstone cloned from the mirror when no overlay
row was present. -/
def delete_by_id (ctx : RemergeCtx) (s : DbState) (id : String) (now : Int) :
    Outcome Bool × DbState :=
  if !dbExists s id then (.ok false, s)
  else
    match get_bumped_vclock ctx s id with
    | .err e => (.err e, s)
    | .corrupt m => (.corrupt m, s)
    | .ok (vclock, s1) =>
      let s2 := { s1 with rec_local := s1.rec_local.map (deleteMarkRow ctx id now vclock) }
      let s3 := { s2 with rec_mirror := s2.rec_mirror.map (overrideMirrorRow id) }
      let s4 :=
        if s3.rec_local.any (fun r => r.guid == id) then s3
        else
          match s3.rec_mirror.find? (fun m => m.guid == id) with
          | some m => { s3 with rec_local := s3.rec_local ++ [tombstoneRow ctx now vclock m] }
          | none => s3
      (.ok true, s4)

/-- The overlay row inserted by clone_mirror_to_overlay: payload, clock and
writer copied from the mirror, zero modified time, not deleted, synced
status, and no schema version column. -/
def cloneRow (m : MirrorRow) : OverlayRow :=
  { guid := m.guid
    schema_version := none
    record_data := m.record_data
    local_modified_ms := 0
    is_deleted := false
    sync_status := syncedCode
    vector_clock := m.vector_clock
    last_writer_id := some m.last_writer_id }

/-- The per-row effect of the UPDATE rec_local statement of update_record:
payload, clock, writer and schema version replaced, sync_status raised to
the numeric maximum of its current value and Changed. -/
def updateMarkRow (ctx : RemergeCtx) (guid : String) (record : LocalRecord)
    (now : Int) (vclock : VClock) (r : OverlayRow) : OverlayRow :=
  if r.guid == guid then
    { r with
      local_modified_ms := now
      record_data := record
      vector_clock := vclock
      last_writer_id := some ctx.client_id
      schema_version := some ctx.localSchema.version
      sync_status := max r.sync_status changedCode }
  else r

/-- update_record: resolve the existing record by the schema's own-guid
field, convert with reason Update, ensure an overlay row exists (cloning
from the mirror on the first local edit), override the mirror, bump the
clock, and apply the update statement. -/
def update_record (ctx : RemergeCtx) (s : DbState) (native : NativeRecord)
    (now : Int) : Outcome Unit × DbState :=
  match ctx.conv.validate_own_guid native with
  | .error e => (.err e, s)
  | .ok guid0 =>
    match get_local_by_id s guid0 with
    | none => (.err (.noSuchRecord guid0), s)
    | some prev =>
      match ctx.conv.native_to_local_update native prev with
      | .error e => (.err e, s)
      | .ok (guid, record) =>
        if dupe_exists s record then (.err .duplicate, s)
        else
          match
            (if s.rec_local.any (fun r => r.guid == guid) then some s
             else
               match s.rec_mirror.find? (fun m => m.guid == guid) with
               | some m => some { s with rec_local := s.rec_local ++ [cloneRow m] }
               | none => none)
          with
          | none => (.err (.noSuchRecord guid), s)
          | some s1 =>
            let s2 := { s1 with rec_mirror := s1.rec_mirror.map (overrideMirrorRow guid) }
            match get_bumped_vclock ctx s2 guid with
            | .err e => (.err e, s)
            | .corrupt m => (.corrupt m, s)
            | .ok (vclock, s3) =>
              (.ok (),
                { s3 with rec_local := s3.rec_local.map (updateMarkRow ctx guid record now vclock) })

/-- in_sync_lockout: no stored marker means no lockout; an unparsable marker
is deleted and reported as no lockout; a parsed requirement reports lockout
exactly when the native schema version fails to satisfy it. -/
def in_sync_lockout (ctx : RemergeCtx) (s : DbState) : Outcome Bool × DbState :=
  match s.meta.sync_native_version_threshold with
  | none => (.ok false, s)
  | some v =>
    match ctx.parseReq v with
    | none =>
      (.ok false,
        { s with meta := { s.meta with sync_native_version_threshold := none } })
    | some req => (.ok (!req.matchesVersion ctx.native.version), s)

/-- bootstrap (first run): persist a fresh client id, insert the native
schema as a schema record (plain INSERT, failing on a version conflict),
set local and native schema versions to the native version, store the
collection name, and set the change counter to 1. -/
def bootstrap (s : DbState) (native : RecordSchema) (freshGuid : String) :
    Outcome (SchemaBundle × String) × DbState :=
  if s.schemas.any (fun r => r.version == native.version) then (.err .sqlConstraint, s)
  else
    (.ok ({ collection_name := native.name, localSchema := native, native := native }, freshGuid),
      { s with
        schemas := s.schemas ++
          [{ is_legacy := native.legacy
             version := native.version
             required_version := native.required_version
             schema_text := native.source }]
        meta := { s.meta with
          own_client_id := some freshGuid
          local_schema_version := some native.version
          native_schema_version := some native.version
          collection_name := some native.name
          change_counter := some 1 } })

/-- load_or_bootstrap: first run when no collection name is stored;
otherwise check the name, load the metadata, clear any sync lockout marker,
update the stored native schema version when it differs, and parse the
stored local schema. parseSchema stands for the external schema text
reader. -/
def load_or_bootstrap (parseSchema : String → Except RError RecordSchema)
    (s : DbState) (native : RecordSchema) (freshGuid : String) :
    Outcome (SchemaBundle × String) × DbState :=
  match s.meta.collection_name with
  | none => bootstrap s native freshGuid
  | some name =>
    if name != native.name then (.err (.schemaNameMatch native.name name), s)
    else
      match s.meta.local_schema_version with
      | none => (.err (.missingMeta "local-schema-version"), s)
      | some local_ver =>
        match s.meta.native_schema_version with
        | none => (.err (.missingMeta "native-schema-version"), s)
        | some native_ver =>
          match s.meta.own_client_id with
          | none => (.err (.missingMeta "client-id"), s)
          | some client_id =>
            let s1 :=
              { s with meta := { s.meta with sync_native_version_threshold := none } }
            let s2 :=
              if native_ver != native.version then
                { s1 with meta := { s1.meta with native_schema_version := some native.version } }
              else s1
            match s2.schemas.find? (fun r => r.version == local_ver) with
            | none => (.err .sqlNoRows, s)
            | some row =>
              match parseSchema row.schema_text with
              | .error e => (.err e, s)
              | .ok parsed =>
                (.ok ({ collection_name := name, localSchema := parsed, native := native }, client_id),
                  s2)

/-- Row-wise sync-status preservation between two overlay tables: every row
keeps its guid at its position, and a row that was unsynced (status distinct
from the synced baseline) is never reset to synced. -/
def statusPreserved (l l' : List OverlayRow) : Prop :=
  ∀ (i : Nat) (r : OverlayRow), l[i]? = some r →
    ∃ r', l'[i]? = some r' ∧ r'.guid = r.guid ∧
      (r.sync_status ≠ syncedCode → r'.sync_status ≠ syncedCode)

/-- The stored change counter never decreases between two states. -/
def counterNondecreasing (s s' : DbState) : Prop :=
  ∀ c c', s.meta.change_counter = some c → s'.meta.change_counter = some c' → c ≤ c'

/-! Concrete data used to instantiate theorems with hypotheses. -/

/-- A concrete conversion environment for witnesses. -/
def convW : Conversions :=
  { native_to_local_creation := fun n => .ok ("g1", "L" ++ n)
    native_to_local_update := fun n p => .ok ("g1", "U" ++ n ++ p)
    local_to_native := fun l => .ok ("N" ++ l)
    validate_own_guid := fun _ => .ok "g1" }

/-- A concrete schema for witnesses. -/
def schW : RecordSchema :=
  { name := "coll", version := "1", required_version := "1", legacy := false, source := "src" }

/-- A concrete context for witnesses. -/
def ctxW : RemergeCtx :=
  { collection_name := "coll"
    native := schW
    localSchema := schW
    conv := convW
    client_id := "me"
    parseReq := fun v => if v == "req" then some { matchesVersion := fun w => w == "2" } else none }

/-- A concrete metadata table for witnesses. -/
def metaW : MetaTable :=
  { collection_name := some "coll"
    local_schema_version := some "1"
    native_schema_version := some "1"
    own_client_id := some "me"
    change_counter := some 5
    sync_native_version_threshold := none }

/-- A concrete empty-tables state for witnesses. -/
def sW : DbState := { rec_local := [], rec_mirror := [], schemas := [], meta := metaW }

/-- A concrete mirror row for witnesses. -/
def mirW : MirrorRow :=
  { guid := "g1"
    record_data := "md"
    vector_clock := [("peer", 3)]
    last_writer_id := "peer"
    is_overridden := some false }

/-- A concrete state holding one live mirror record. -/
def sMirW : DbState := { sW with rec_mirror := [mirW] }

/-- The state after creating one record in the empty witness state. -/
def sOneW : DbState := (create ctxW sW "rec" 100).2

/-- An entirely empty metadata table, as on first run. -/
def metaNoneW : MetaTable :=
  { collection_name := none
    local_schema_version := none
    native_schema_version := none
    own_client_id := none
    change_counter := none
    sync_native_version_threshold := none }

/-- A first-run state: no tables, no metadata. -/
def sFreshW : DbState := { rec_local := [], rec_mirror := [], schemas := [], meta := metaNoneW }

/-- The schema record stored for version 1 in the reload witness state. -/
def schRowW : SchemaRow :=
  { is_legacy := false, version := "1", required_version := "1", schema_text := "src" }

/-- The witness schema with its version bumped to 2. -/
def schW2 : RecordSchema := { schW with version := "2" }

/-- A reload state: stored metadata for version 1 plus a stale sync-lockout
marker. -/
def sReloadW : DbState :=
  { rec_local := []
    rec_mirror := []
    schemas := [schRowW]
    meta := { metaW with sync_native_version_threshold := some "stale" } }

/-- A concrete schema-text reader for witnesses. -/
def parseW : String → Except RError RecordSchema := fun _ => .ok schW

/-- A state carrying an unparsable sync-lockout marker. -/
def sLockW : DbState := { sW with meta := { metaW with sync_native_version_threshold := some "x" } }

/-! Helper lemmas. -/

theorem statusPreserved_refl (l : List OverlayRow) : statusPreserved l l := by
  intro i r h
  exact ⟨r, h, rfl, fun hr => hr⟩

theorem statusPreserved_trans {l l' l'' : List OverlayRow}
    (h1 : statusPreserved l l') (h2 : statusPreserved l' l'') :
    statusPreserved l l'' := by
  intro i r h
  obtain ⟨r', h', hg', hs'⟩ := h1 i r h
  obtain ⟨r'', h'', hg'', hs''⟩ := h2 i r' h'
  exact ⟨r'', h'', hg''.trans hg', fun hr => hs'' (hs' hr)⟩

theorem statusPreserved_map (l : List OverlayRow) (f : OverlayRow → OverlayRow)
    (hg : ∀ r, (f r).guid = r.guid)
    (hs : ∀ r, r.sync_status ≠ syncedCode → (f r).sync_status ≠ syncedCode) :
    statusPreserved l (l.map f) := by
  intro i r h
  refine ⟨f r, ?_, hg r, hs r⟩
  simp [List.getElem?_map, h]

theorem statusPreserved_append (l l₂ : List OverlayRow) :
    statusPreserved l (l ++ l₂) := by
  intro i r h
  refine ⟨r, ?_, rfl, fun hr => hr⟩
  have hi : i < l.length := (List.getElem?_eq_some.mp h).1
  rw [List.getElem?_append_left hi]
  exact h

theorem deleteMarkRow_guid (ctx : RemergeCtx) (id : String) (now : Int)
    (vc : VClock) (r : OverlayRow) : (deleteMarkRow ctx id now vc r).guid = r.guid := by
  unfold deleteMarkRow
  split <;> rfl

theorem deleteMarkRow_status (ctx : RemergeCtx) (id : String) (now : Int)
    (vc : VClock) (r : OverlayRow) :
    (deleteMarkRow ctx id now vc r).sync_status = changedCode ∨
      deleteMarkRow ctx id now vc r = r := by
  unfold deleteMarkRow
  split
  · exact Or.inl rfl
  · exact Or.inr rfl

theorem updateMarkRow_guid (ctx : RemergeCtx) (guid : String) (record : LocalRecord)
    (now : Int) (vc : VClock) (r : OverlayRow) :
    (updateMarkRow ctx guid record now vc r).guid = r.guid := by
  unfold updateMarkRow
  split <;> rfl

theorem updateMarkRow_status (ctx : RemergeCtx) (guid : String) (record : LocalRecord)
    (now : Int) (vc : VClock) (r : OverlayRow) :
    (updateMarkRow ctx guid record now vc r).sync_status = max r.sync_status changedCode ∨
      updateMarkRow ctx guid record now vc r = r := by
  unfold updateMarkRow
  split
  · exact Or.inl rfl
  · exact Or.inr rfl

theorem overrideMirrorRow_guid (id : String) (m : MirrorRow) :
    (overrideMirrorRow id m).guid = m.guid := by
  unfold overrideMirrorRow
  split <;> rfl

theorem counter_bump_eq_ok {s : DbState} {c : Int}
    (h : s.meta.change_counter = some c) (h0 : 0 ≤ c) (hlt : c < i64Max) :
    counter_bump s =
      .ok (c + 1, { s with meta := { s.meta with change_counter := some (c + 1) } }) := by
  unfold counter_bump
  simp only [h]
  rw [if_neg (not_lt.mpr h0), if_neg (not_le.mpr hlt)]

theorem counter_bump_ok_inv {s s₁ : DbState} {k : Int}
    (h : counter_bump s = .ok (k, s₁)) :
    ∃ c, s.meta.change_counter = some c ∧ 0 ≤ c ∧ c < i64Max ∧ k = c + 1 ∧
      s₁ = { s with meta := { s.meta with change_counter := some (c + 1) } } := by
  unfold counter_bump at h
  cases hcc : s.meta.change_counter with
  | none =>
    simp only [hcc] at h
    exact Outcome.noConfusion h
  | some c =>
    simp only [hcc] at h
    by_cases h1 : c < 0
    · rw [if_pos h1] at h
      exact Outcome.noConfusion h
    · rw [if_neg h1] at h
      by_cases h2 : i64Max ≤ c
      · rw [if_pos h2] at h
        exact Outcome.noConfusion h
      · rw [if_neg h2] at h
        have h' := Outcome.ok.inj h
        exact ⟨c, rfl, not_lt.mp h1, not_le.mp h2,
          (congrArg Prod.fst h').symm, (congrArg Prod.snd h').symm⟩

theorem get_vclock_of_exists {s : DbState} {id : String}
    (h : dbExists s id = true) : ∃ vc, get_vclock s id = .ok vc := by
  unfold get_vclock
  cases hf : s.rec_local.find? (fun r => r.guid == id && !r.is_deleted) with
  | some r => exact ⟨r.vector_clock, rfl⟩
  | none =>
    cases hf2 : s.rec_mirror.find? (fun m => m.guid == id && m.is_overridden != some true) with
    | some m => exact ⟨m.vector_clock, rfl⟩
    | none =>
      exfalso
      unfold dbExists at h
      rcases Bool.or_eq_true_iff.mp h with h1 | h2
      · obtain ⟨x, hx, hpx⟩ := List.any_eq_true.mp h1
        exact List.find?_eq_none.mp hf x hx hpx
      · obtain ⟨x, hx, hpx⟩ := List.any_eq_true.mp h2
        exact List.find?_eq_none.mp hf2 x hx hpx

theorem get_bumped_vclock_eq (ctx : RemergeCtx) {s s₁ : DbState} {id : String}
    {vc : VClock} {k : Int}
    (hvc : get_vclock s id = .ok vc) (hc : counter_bump s = .ok (k, s₁)) :
    get_bumped_vclock ctx s id = .ok (vc.apply ctx.client_id k, s₁) := by
  unfold get_bumped_vclock
  rw [hvc, hc]

theorem get_bumped_vclock_ok_inv {ctx : RemergeCtx} {s s₁ : DbState} {id : String}
    {w : VClock} (h : get_bumped_vclock ctx s id = .ok (w, s₁)) :
    ∃ vc c, get_vclock s id = .ok vc ∧ s.meta.change_counter = some c ∧
      0 ≤ c ∧ c < i64Max ∧ w = vc.apply ctx.client_id (c + 1) ∧
      s₁ = { s with meta := { s.meta with change_counter := some (c + 1) } } := by
  unfold get_bumped_vclock at h
  cases hgv : get_vclock s id with
  | err e => rw [hgv] at h; exact Outcome.noConfusion h
  | corrupt m => rw [hgv] at h; exact Outcome.noConfusion h
  | ok vc =>
    rw [hgv] at h
    cases hcb : counter_bump s with
    | err e => rw [hcb] at h; exact Outcome.noConfusion h
    | corrupt m => rw [hcb] at h; exact Outcome.noConfusion h
    | ok pr =>
      obtain ⟨k, s₂⟩ := pr
      rw [hcb] at h
      obtain ⟨c, hcc, h0, hlt, hk, hs₂⟩ := counter_bump_ok_inv hcb
      have h' := Outcome.ok.inj h
      have hw : vc.apply ctx.client_id k = w := congrArg Prod.fst h'
      have hs : s₂ = s₁ := congrArg Prod.snd h'
      exact ⟨vc, c, rfl, hcc, h0, hlt, by rw [← hw, hk], by rw [← hs, hs₂]⟩

theorem any_guid_map {l : List OverlayRow} {f : OverlayRow → OverlayRow}
    (hf : ∀ r, (f r).guid = r.guid) (id : String) :
    (l.map f).any (fun r => r.guid == id) = l.any (fun r => r.guid == id) := by
  rw [List.any_map]
  congr 1
  funext r
  simp [Function.comp, hf r]

theorem deleted_after_mark (ctx : RemergeCtx) (id : String) (now : Int)
    (vc : VClock) (l : List OverlayRow) :
    ∀ r', r' ∈ l.map (deleteMarkRow ctx id now vc) → (r'.guid == id) = true →
      r'.is_deleted = true := by
  intro r' hmem hguid
  obtain ⟨r, _, hr⟩ := List.mem_map.mp hmem
  subst hr
  unfold deleteMarkRow
  unfold deleteMarkRow at hguid
  by_cases hg : (r.guid == id) = true
  · rw [if_pos hg]
  · rw [if_neg hg] at hguid
    exact absurd hguid hg

theorem overridden_after_mark (id : String) (l : List MirrorRow) :
    ∀ m', m' ∈ l.map (overrideMirrorRow id) → (m'.guid == id) = true →
      m'.is_overridden = some true := by
  intro m' hmem hguid
  obtain ⟨m, _, hm⟩ := List.mem_map.mp hmem
  subst hm
  unfold overrideMirrorRow
  unfold overrideMirrorRow at hguid
  by_cases hg : (m.guid == id) = true
  · rw [if_pos hg]
  · rw [if_neg hg] at hguid
    exact absurd hguid hg

theorem delete_success (ctx : RemergeCtx) {s : DbState} {id : String} (now : Int)
    {vc : VClock} {c : Int}
    (hex : dbExists s id = true) (hvc : get_vclock s id = .ok vc)
    (hcc : s.meta.change_counter = some c) (h0 : 0 ≤ c) (hlt : c < i64Max) :
    ∃ s', delete_by_id ctx s id now = (.ok true, s') ∧
      s'.rec_mirror = s.rec_mirror.map (overrideMirrorRow id) ∧
      s'.schemas = s.schemas ∧
      s'.meta = { s.meta with change_counter := some (c + 1) } ∧
      ((s.rec_local.any (fun r => r.guid == id) = true ∧
        s'.rec_local = s.rec_local.map (deleteMarkRow ctx id now (vc.apply ctx.client_id (c + 1)))) ∨
       (s.rec_local.any (fun r => r.guid == id) = false ∧
        ∃ m, (m.guid == id) = true ∧
          s'.rec_local = s.rec_local.map (deleteMarkRow ctx id now (vc.apply ctx.client_id (c + 1)))
            ++ [tombstoneRow ctx now (vc.apply ctx.client_id (c + 1)) m])) := by
  have hbump := counter_bump_eq_ok hcc h0 hlt
  have hgb := get_bumped_vclock_eq ctx hvc hbump
  unfold delete_by_id
  simp only [hex, hgb, Bool.not_true, Bool.false_eq_true, if_false]
  cases hany : s.rec_local.any (fun r => r.guid == id) with
  | true =>
    rw [if_pos (by
      rw [any_guid_map (deleteMarkRow_guid ctx id now _) id]
      exact hany)]
    exact ⟨_, rfl, rfl, rfl, rfl, Or.inl ⟨rfl, rfl⟩⟩
  | false =>
    rw [if_neg (by
      rw [any_guid_map (deleteMarkRow_guid ctx id now _) id]
      simp [hany])]
    have hmir : ∃ m₀ ∈ s.rec_mirror, (m₀.guid == id) = true := by
      unfold dbExists at hex
      rcases Bool.or_eq_true_iff.mp hex with h1 | h2
      · exfalso
        obtain ⟨x, hx, hpx⟩ := List.any_eq_true.mp h1
        have := List.any_eq_false.mp hany x hx
        exact this (Bool.and_elim_left hpx)
      · obtain ⟨x, hx, hpx⟩ := List.any_eq_true.mp h2
        exact ⟨x, hx, Bool.and_elim_left hpx⟩
    obtain ⟨m₀, hm₀, hg₀⟩ := hmir
    have hsome : ((s.rec_mirror.map (overrideMirrorRow id)).find?
        (fun m => m.guid == id)).isSome := by
      rw [List.find?_isSome]
      exact ⟨overrideMirrorRow id m₀, List.mem_map_of_mem _ hm₀, by
        rw [overrideMirrorRow_guid]; exact hg₀⟩
    cases hfind : (s.rec_mirror.map (overrideMirrorRow id)).find? (fun m => m.guid == id) with
    | none => rw [hfind] at hsome; exact absurd hsome (by simp)
    | some m =>
      exact ⟨_, rfl, rfl, rfl, rfl, Or.inr ⟨rfl, m, by simpa using List.find?_some hfind, rfl⟩⟩

theorem delete_cases (ctx : RemergeCtx) (s : DbState) (id : String) (now : Int) :
    (∃ e, delete_by_id ctx s id now = (.err e, s)) ∨
    (∃ m, delete_by_id ctx s id now = (.corrupt m, s)) ∨
    (delete_by_id ctx s id now = (.ok false, s)) ∨
    (∃ (c : Int) (vc : VClock) (s' : DbState), delete_by_id ctx s id now = (.ok true, s') ∧
      s.meta.change_counter = some c ∧ 0 ≤ c ∧ c < i64Max ∧
      s'.rec_mirror = s.rec_mirror.map (overrideMirrorRow id) ∧
      s'.schemas = s.schemas ∧
      s'.meta = { s.meta with change_counter := some (c + 1) } ∧
      (s'.rec_local = s.rec_local.map (deleteMarkRow ctx id now (vc.apply ctx.client_id (c + 1))) ∨
       ∃ m, s'.rec_local =
         s.rec_local.map (deleteMarkRow ctx id now (vc.apply ctx.client_id (c + 1)))
           ++ [tombstoneRow ctx now (vc.apply ctx.client_id (c + 1)) m])) := by
  cases hex : dbExists s id with
  | false =>
    refine Or.inr (Or.inr (Or.inl ?_))
    unfold delete_by_id
    simp [hex]
  | true =>
    cases hgb : get_bumped_vclock ctx s id with
    | err e =>
      refine Or.inl ⟨e, ?_⟩
      unfold delete_by_id
      simp [hex, hgb]
    | corrupt m =>
      refine Or.inr (Or.inl ⟨m, ?_⟩)
      unfold delete_by_id
      simp [hex, hgb]
    | ok pr =>
      obtain ⟨w, s₁⟩ := pr
      obtain ⟨vc, c, hvc, hcc, h0, hlt, hw, hs1⟩ := get_bumped_vclock_ok_inv hgb
      obtain ⟨s', hds, hmir, hsch, hmeta, hcase⟩ :=
        delete_success ctx now hex hvc hcc h0 hlt
      refine Or.inr (Or.inr (Or.inr ⟨c, vc, s', hds, hcc, h0, hlt, hmir, hsch, hmeta, ?_⟩))
      rcases hcase with ⟨_, hl⟩ | ⟨_, m, _, hl⟩
      · exact Or.inl hl
      · exact Or.inr ⟨m, hl⟩

theorem create_success_eq {ctx : RemergeCtx} {s : DbState} {native : NativeRecord}
    (now : Int) {id : String} {record : LocalRecord} {c : Int}
    (hcv : ctx.conv.native_to_local_creation native = .ok (id, record))
    (hex : dbExists s id = false)
    (hrow : s.rec_local.any (fun r => r.guid == id) = false)
    (hcc : s.meta.change_counter = some c) (h0 : 0 ≤ c) (hlt : c < i64Max) :
    create ctx s native now =
      (.ok id,
        { s with
            rec_local := s.rec_local ++ [createRow ctx id record now (c + 1)]
            meta := { s.meta with change_counter := some (c + 1) } }) := by
  unfold create
  simp only [hcv, hex, dupe_exists, Bool.false_eq_true, if_false,
    counter_bump_eq_ok hcc h0 hlt, hrow]

theorem create_cases (ctx : RemergeCtx) (s : DbState) (native : NativeRecord) (now : Int) :
    (∃ e, create ctx s native now = (.err e, s)) ∨
    (∃ m, create ctx s native now = (.corrupt m, s)) ∨
    (∃ id record c, create ctx s native now =
        (.ok id,
          { s with
              rec_local := s.rec_local ++ [createRow ctx id record now (c + 1)]
              meta := { s.meta with change_counter := some (c + 1) } }) ∧
      s.meta.change_counter = some c ∧ 0 ≤ c ∧ c < i64Max) := by
  cases hcv : ctx.conv.native_to_local_creation native with
  | error e =>
    refine Or.inl ⟨e, ?_⟩
    unfold create
    simp [hcv]
  | ok pr =>
    obtain ⟨id, record⟩ := pr
    cases hex : dbExists s id with
    | true =>
      refine Or.inl ⟨.idNotUnique, ?_⟩
      unfold create
      simp [hcv, hex]
    | false =>
      cases hcb : counter_bump s with
      | err e =>
        refine Or.inl ⟨e, ?_⟩
        unfold create
        simp [hcv, hex, dupe_exists, hcb]
      | corrupt m =>
        refine Or.inr (Or.inl ⟨m, ?_⟩)
        unfold create
        simp [hcv, hex, dupe_exists, hcb]
      | ok pr2 =>
        obtain ⟨k, s₁⟩ := pr2
        obtain ⟨c, hcc, h0, hlt, hk, hs1⟩ := counter_bump_ok_inv hcb
        cases hany : s.rec_local.any (fun r => r.guid == id) with
        | true =>
          refine Or.inl ⟨.sqlConstraint, ?_⟩
          unfold create
          simp [hcv, hex, dupe_exists, hcb, hs1, hany]
        | false =>
          exact Or.inr (Or.inr ⟨id, record, c,
            create_success_eq now hcv hex hany hcc h0 hlt, hcc, h0, hlt⟩)

theorem update_cases (ctx : RemergeCtx) (s : DbState) (native : NativeRecord) (now : Int) :
    (∃ e, update_record ctx s native now = (.err e, s)) ∨
    (∃ m, update_record ctx s native now = (.corrupt m, s)) ∨
    (∃ (g : String) (rec : LocalRecord) (vc : VClock) (c : Int) (s' : DbState),
      update_record ctx s native now = (.ok (), s') ∧
      s.meta.change_counter = some c ∧ 0 ≤ c ∧ c < i64Max ∧
      s'.meta = { s.meta with change_counter := some (c + 1) } ∧
      s'.schemas = s.schemas ∧
      s'.rec_mirror = s.rec_mirror.map (overrideMirrorRow g) ∧
      (s'.rec_local = s.rec_local.map (updateMarkRow ctx g rec now vc) ∨
       ∃ m, s'.rec_local = (s.rec_local ++ [cloneRow m]).map (updateMarkRow ctx g rec now vc))) := by
  cases hvg : ctx.conv.validate_own_guid native with
  | error e =>
    refine Or.inl ⟨e, ?_⟩
    unfold update_record
    simp [hvg]
  | ok g0 =>
    cases hgl : get_local_by_id s g0 with
    | none =>
      refine Or.inl ⟨.noSuchRecord g0, ?_⟩
      unfold update_record
      simp [hvg, hgl]
    | some prev =>
      cases hnu : ctx.conv.native_to_local_update native prev with
      | error e =>
        refine Or.inl ⟨e, ?_⟩
        unfold update_record
        simp [hvg, hgl, hnu]
      | ok pr =>
        obtain ⟨g, rec⟩ := pr
        cases hany : s.rec_local.any (fun r => r.guid == g) with
        | true =>
          cases hgb : get_bumped_vclock ctx
              { s with rec_mirror := s.rec_mirror.map (overrideMirrorRow g) } g with
          | err e =>
            refine Or.inl ⟨e, ?_⟩
            unfold update_record
            simp [hvg, hgl, hnu, dupe_exists, hany, hgb]
          | corrupt m =>
            refine Or.inr (Or.inl ⟨m, ?_⟩)
            unfold update_record
            simp [hvg, hgl, hnu, dupe_exists, hany, hgb]
          | ok pr2 =>
            obtain ⟨w, s₃⟩ := pr2
            obtain ⟨vc0, c, hvc0, hcc, h0, hlt, hw, hs3⟩ := get_bumped_vclock_ok_inv hgb
            refine Or.inr (Or.inr ⟨g, rec, w, c,
              { s₃ with rec_local := s₃.rec_local.map (updateMarkRow ctx g rec now w) },
              ?_, hcc, h0, hlt, ?_, ?_, ?_, ?_⟩)
            · unfold update_record
              simp only [hvg, hgl, hnu, dupe_exists, hany, hgb, Bool.false_eq_true, if_false,
                if_true]
            · rw [hs3]
            · rw [hs3]
            · rw [hs3]
            · refine Or.inl ?_
              rw [hs3]
        | false =>
          cases hfm : s.rec_mirror.find? (fun m => m.guid == g) with
          | none =>
            refine Or.inl ⟨.noSuchRecord g, ?_⟩
            unfold update_record
            simp [hvg, hgl, hnu, dupe_exists, hany, hfm]
          | some m =>
            cases hgb : get_bumped_vclock ctx
                { s with
                    rec_local := s.rec_local ++ [cloneRow m]
                    rec_mirror := s.rec_mirror.map (overrideMirrorRow g) } g with
            | err e =>
              refine Or.inl ⟨e, ?_⟩
              unfold update_record
              simp [hvg, hgl, hnu, dupe_exists, hany, hfm, hgb]
            | corrupt mm =>
              refine Or.inr (Or.inl ⟨mm, ?_⟩)
              unfold update_record
              simp [hvg, hgl, hnu, dupe_exists, hany, hfm, hgb]
            | ok pr2 =>
              obtain ⟨w, s₃⟩ := pr2
              obtain ⟨vc0, c, hvc0, hcc, h0, hlt, hw, hs3⟩ := get_bumped_vclock_ok_inv hgb
              refine Or.inr (Or.inr ⟨g, rec, w, c,
                { s₃ with rec_local := s₃.rec_local.map (updateMarkRow ctx g rec now w) },
                ?_, hcc, h0, hlt, ?_, ?_, ?_, ?_⟩)
              · unfold update_record
                simp only [hvg, hgl, hnu, dupe_exists, hany, hfm, hgb, Bool.false_eq_true,
                  if_false, if_true]
              · rw [hs3]
              · rw [hs3]
              · rw [hs3]
              · refine Or.inr ⟨m, ?_⟩
                rw [hs3]

theorem updateMarkRow_status_ne (ctx : RemergeCtx) (g : String) (rec : LocalRecord)
    (now : Int) (vc : VClock) (r : OverlayRow) (h : r.sync_status ≠ syncedCode) :
    (updateMarkRow ctx g rec now vc r).sync_status ≠ syncedCode := by
  rcases updateMarkRow_status ctx g rec now vc r with h1 | h1
  · rw [h1]
    intro heq
    have hle : changedCode ≤ max r.sync_status changedCode := Nat.le_max_right _ _
    rw [heq] at hle
    exact absurd hle (by decide)
  · rw [h1]
    exact h

theorem deleteMarkRow_status_ne (ctx : RemergeCtx) (id : String) (now : Int)
    (vc : VClock) (r : OverlayRow) (h : r.sync_status ≠ syncedCode) :
    (deleteMarkRow ctx id now vc r).sync_status ≠ syncedCode := by
  rcases deleteMarkRow_status ctx id now vc r with h1 | h1
  · rw [h1]
    decide
  · rw [h1]
    exact h

/-- Claim C1: for every overlay row, local CRUD never lowers its sync status along
the order in which the synced baseline sits strictly below New and Changed:
update_record writes the numeric maximum of the current status and Changed,
no create, update or delete resets an unsynced row back to synced, and a
successful deletion leaves every overlay row of the guid at a status of at
least Changed. -/
theorem c1_sync_status_monotone (ctx : RemergeCtx) (s : DbState)
    (native : NativeRecord) (id : String) (now : Int) :
    statusPreserved s.rec_local (create ctx s native now).2.rec_local ∧
    statusPreserved s.rec_local (update_record ctx s native now).2.rec_local ∧
    statusPreserved s.rec_local (delete_by_id ctx s id now).2.rec_local ∧
    (∀ s', update_record ctx s native now = (.ok (), s') →
      ∀ (i : Nat) (r : OverlayRow), s.rec_local[i]? = some r →
        ∃ r', s'.rec_local[i]? = some r' ∧ r'.guid = r.guid ∧
          (r'.sync_status = max r.sync_status changedCode ∨ r' = r)) ∧
    (∀ s', delete_by_id ctx s id now = (.ok true, s') →
      ∀ r', r' ∈ s'.rec_local → r'.guid = id → changedCode ≤ r'.sync_status) := by
  refine ⟨?_, ?_, ?_, ?_, ?_⟩
  · -- create preserves status
    rcases create_cases ctx s native now with ⟨e, heq⟩ | ⟨m, heq⟩ | ⟨cid, rec, c, heq, _⟩ <;>
      rw [heq]
    · exact statusPreserved_refl _
    · exact statusPreserved_refl _
    · exact statusPreserved_append _ _
  · -- update preserves status
    rcases update_cases ctx s native now with ⟨e, heq⟩ | ⟨m, heq⟩ |
      ⟨g, rec, vc, c, s', heq, _, _, _, _, _, _, hloc⟩
    · rw [heq]; exact statusPreserved_refl _
    · rw [heq]; exact statusPreserved_refl _
    · rw [heq]
      rcases hloc with hl | ⟨m, hl⟩
      · rw [hl]
        exact statusPreserved_map _ _ (updateMarkRow_guid ctx g rec now vc)
          (updateMarkRow_status_ne ctx g rec now vc)
      · rw [hl]
        exact statusPreserved_trans (statusPreserved_append _ _)
          (statusPreserved_map _ _ (updateMarkRow_guid ctx g rec now vc)
            (updateMarkRow_status_ne ctx g rec now vc))
  · -- delete preserves status
    rcases delete_cases ctx s id now with ⟨e, heq⟩ | ⟨m, heq⟩ | heq |
      ⟨c, vc, s', heq, _, _, _, _, _, _, hloc⟩
    · rw [heq]; exact statusPreserved_refl _
    · rw [heq]; exact statusPreserved_refl _
    · rw [heq]; exact statusPreserved_refl _
    · rw [heq]
      have hmark := statusPreserved_map s.rec_local _
        (deleteMarkRow_guid ctx id now (vc.apply ctx.client_id (c + 1)))
        (deleteMarkRow_status_ne ctx id now (vc.apply ctx.client_id (c + 1)))
      rcases hloc with hl | ⟨m, hl⟩
      · rw [hl]; exact hmark
      · rw [hl]
        exact statusPreserved_trans hmark (statusPreserved_append _ _)
  · -- update writes the maximum of the current status and Changed
    intro s' hok i r hir
    rcases update_cases ctx s native now with ⟨e, heq⟩ | ⟨m, heq⟩ |
      ⟨g, rec, vc, c, s'₀, heq, _, _, _, _, _, _, hloc⟩
    · rw [heq] at hok
      exact Outcome.noConfusion (congrArg Prod.fst hok)
    · rw [heq] at hok
      exact Outcome.noConfusion (congrArg Prod.fst hok)
    · rw [heq] at hok
      have hs' : s'₀ = s' := congrArg Prod.snd hok
      subst hs'
      have hi : i < s.rec_local.length := (List.getElem?_eq_some.mp hir).1
      rcases hloc with hl | ⟨m, hl⟩
      · refine ⟨updateMarkRow ctx g rec now vc r, ?_, updateMarkRow_guid ctx g rec now vc r, ?_⟩
        · rw [hl, List.getElem?_map, hir]
          rfl
        · rcases updateMarkRow_status ctx g rec now vc r with h1 | h1
          · exact Or.inl h1
          · exact Or.inr h1
      · refine ⟨updateMarkRow ctx g rec now vc r, ?_, updateMarkRow_guid ctx g rec now vc r, ?_⟩
        · rw [hl, List.getElem?_map, List.getElem?_append_left hi, hir]
          rfl
        · rcases updateMarkRow_status ctx g rec now vc r with h1 | h1
          · exact Or.inl h1
          · exact Or.inr h1
  · -- a successful delete leaves the guid's overlay rows at least Changed
    intro s' hok r' hmem hguid
    rcases delete_cases ctx s id now with ⟨e, heq⟩ | ⟨m, heq⟩ | heq |
      ⟨c, vc, s'₀, heq, _, _, _, _, _, _, hloc⟩
    · rw [heq] at hok
      exact Outcome.noConfusion (congrArg Prod.fst hok)
    · rw [heq] at hok
      exact Outcome.noConfusion (congrArg Prod.fst hok)
    · rw [heq] at hok
      exact Bool.noConfusion (Outcome.ok.inj (congrArg Prod.fst hok))
    · rw [heq] at hok
      have hs' : s'₀ = s' := congrArg Prod.snd hok
      subst hs'
      have hmap : ∀ x, x ∈ s.rec_local.map (deleteMarkRow ctx id now (vc.apply ctx.client_id (c + 1))) →
          x.guid = id → changedCode ≤ x.sync_status := by
        intro x hx hgx
        obtain ⟨r0, _, hr0⟩ := List.mem_map.mp hx
        subst hr0
        by_cases hg : (r0.guid == id) = true
        · unfold deleteMarkRow
          rw [if_pos hg]
        · exfalso
          rw [deleteMarkRow_guid] at hgx
          exact hg (beq_iff_eq.mpr hgx)
      rcases hloc with hl | ⟨m, hl⟩
      · rw [hl] at hmem
        exact hmap r' hmem hguid
      · rw [hl] at hmem
        rcases List.mem_append.mp hmem with hin | hin
        · exact hmap r' hin hguid
        · rw [List.mem_singleton.mp hin]
          exact Nat.le_refl _

/-- Claim C2: delete_by_id on a guid with no live record returns false and leaves
the state untouched; on a live record it returns true, after which the
record is invisible to get_local_by_id, get_by_id and exists, a second
delete returns false, and a tombstone overlay row remains with is_deleted
set. -/
theorem c2_delete_by_id_semantics (ctx : RemergeCtx) (s : DbState) (id : String)
    (now now' : Int) (c : Int) :
    (dbExists s id = false → delete_by_id ctx s id now = (.ok false, s)) ∧
    (dbExists s id = true → s.meta.change_counter = some c → 0 ≤ c → c < i64Max →
      ∃ s', delete_by_id ctx s id now = (.ok true, s') ∧
        dbExists s' id = false ∧
        get_local_by_id s' id = none ∧
        get_by_id ctx s' id = .ok none ∧
        delete_by_id ctx s' id now' = (.ok false, s') ∧
        ∃ r', r' ∈ s'.rec_local ∧ r'.guid = id ∧ r'.is_deleted = true) := by
  constructor
  · intro hex
    unfold delete_by_id
    simp [hex]
  · intro hex hcc h0 hlt
    obtain ⟨vc, hvc⟩ := get_vclock_of_exists hex
    obtain ⟨s', hds, hmir, hsch, hmeta, hcase⟩ :=
      delete_success ctx now hex hvc hcc h0 hlt
    have hdead : ∀ x, x ∈ s'.rec_local → (x.guid == id) = true → x.is_deleted = true := by
      rcases hcase with ⟨_, hl⟩ | ⟨_, m, hgm, hl⟩
      · rw [hl]
        exact deleted_after_mark ctx id now _ _
      · rw [hl]
        intro x hx hgx
        rcases List.mem_append.mp hx with hin | hin
        · exact deleted_after_mark ctx id now _ _ x hin hgx
        · rw [List.mem_singleton.mp hin]
          rfl
    have hover : ∀ x, x ∈ s'.rec_mirror → (x.guid == id) = true →
        x.is_overridden = some true := by
      rw [hmir]
      exact overridden_after_mark id _
    have hex2 : dbExists s' id = false := by
      unfold dbExists
      rw [Bool.or_eq_false_iff]
      constructor
      · rw [List.any_eq_false]
        intro x hx hpx
        have hg := Bool.and_elim_left hpx
        have hd := Bool.and_elim_right hpx
        rw [hdead x hx hg] at hd
        exact Bool.noConfusion hd
      · rw [List.any_eq_false]
        intro x hx hpx
        have hg := Bool.and_elim_left hpx
        have hd := Bool.and_elim_right hpx
        rw [hover x hx hg] at hd
        exact Bool.noConfusion hd
    have hgl : get_local_by_id s' id = none := by
      unfold get_local_by_id
      have hf1 : s'.rec_local.find? (fun r => r.guid == id && !r.is_deleted) = none := by
        rw [List.find?_eq_none]
        intro x hx hpx
        have hg := Bool.and_elim_left hpx
        have hd := Bool.and_elim_right hpx
        rw [hdead x hx hg] at hd
        exact Bool.noConfusion hd
      have hf2 : s'.rec_mirror.find?
          (fun m => m.guid == id && m.is_overridden == some false) = none := by
        rw [List.find?_eq_none]
        intro x hx hpx
        have hg := Bool.and_elim_left hpx
        have hd := Bool.and_elim_right hpx
        rw [hover x hx hg] at hd
        exact Bool.noConfusion hd
      rw [hf1, hf2]
      rfl
    refine ⟨s', hds, hex2, hgl, ?_, ?_, ?_⟩
    · unfold get_by_id
      rw [hgl]
    · unfold delete_by_id
      simp [hex2]
    · rcases hcase with ⟨hany, hl⟩ | ⟨hany, m, hgm, hl⟩
      · obtain ⟨r0, hr0, hg0⟩ := List.any_eq_true.mp hany
        refine ⟨deleteMarkRow ctx id now (vc.apply ctx.client_id (c + 1)) r0, ?_, ?_, ?_⟩
        · rw [hl]
          exact List.mem_map_of_mem _ hr0
        · rw [deleteMarkRow_guid]
          exact eq_of_beq hg0
        · unfold deleteMarkRow
          rw [if_pos hg0]
      · refine ⟨tombstoneRow ctx now (vc.apply ctx.client_id (c + 1)) m, ?_, eq_of_beq hgm, rfl⟩
        rw [hl]
        exact List.mem_append_right _ (List.mem_singleton_self _)

/-- Claim C3: evaluating delete_by_id on a record that lives only in the mirror
(no overlay row). The freshly inserted tombstone carries the bumped vector
clock and the cleared payload, but its last_writer_id is NULL rather than
the local client id, because the tombstone INSERT statement references an
own_id parameter that its parameter list never binds. -/
theorem c3_tombstone_writer_is_null :
    ∃ s', delete_by_id ctxW sMirW "g1" 103 = (.ok true, s') ∧
      s'.rec_local.map (fun r => r.last_writer_id) = [none] ∧
      s'.rec_local.map (fun r => r.record_data) = [emptyRecordData] ∧
      s'.rec_local.map (fun r => r.vector_clock) =
        [VClock.apply [("peer", 3)] "me" 6] ∧
      s'.rec_local.map (fun r => r.is_deleted) = [true] := by
  exact ⟨(delete_by_id ctxW sMirW "g1" 103).2, by decide, by decide, by decide,
    by decide, by decide⟩

/-- Claim C4: whenever create succeeds for a native record converting to guid id
and local payload record, the guid afterwards exists, get_by_id returns the
payload round-tripped through the local-to-native conversion, and the
inserted overlay row has sync status New. -/
theorem c4_create_roundtrip (ctx : RemergeCtx) (s : DbState) (native : NativeRecord)
    (now : Int) (id : String) (record : LocalRecord) (c : Int)
    (hcv : ctx.conv.native_to_local_creation native = .ok (id, record))
    (hex : dbExists s id = false)
    (hrow : s.rec_local.any (fun r => r.guid == id) = false)
    (hcc : s.meta.change_counter = some c) (h0 : 0 ≤ c) (hlt : c < i64Max) :
    ∃ s', create ctx s native now = (.ok id, s') ∧
      dbExists s' id = true ∧
      get_by_id ctx s' id =
        (match ctx.conv.local_to_native record with
         | .ok n => .ok (some n)
         | .error e => .err e) ∧
      ∃ r', r' ∈ s'.rec_local ∧ r'.guid = id ∧ r'.sync_status = newCode := by
  have heq := create_success_eq now hcv hex hrow hcc h0 hlt
  have hfnew : (s.rec_local ++ [createRow ctx id record now (c + 1)]).find?
      (fun r => r.guid == id && !r.is_deleted) = some (createRow ctx id record now (c + 1)) := by
    rw [List.find?_append]
    have h1 : s.rec_local.find? (fun r => r.guid == id && !r.is_deleted) = none := by
      rw [List.find?_eq_none]
      intro x hx hpx
      exact absurd (Bool.and_elim_left hpx) (by
        have := List.any_eq_false.mp hrow x hx
        simpa using this)
    rw [h1]
    simp [createRow]
  refine ⟨_, heq, ?_, ?_, ?_⟩
  · unfold dbExists
    have hany : (s.rec_local ++ [createRow ctx id record now (c + 1)]).any
        (fun r => r.guid == id && !r.is_deleted) = true := by
      rw [List.any_eq_true]
      exact ⟨createRow ctx id record now (c + 1),
        List.mem_append_right _ (List.mem_singleton_self _), by simp [createRow]⟩
    simp only [hany, Bool.true_or]
  · have hgl : get_local_by_id
        { s with
            rec_local := s.rec_local ++ [createRow ctx id record now (c + 1)]
            meta := { s.meta with change_counter := some (c + 1) } } id =
        some record := by
      unfold get_local_by_id
      simp only [hfnew]
      rfl
    unfold get_by_id
    rw [hgl]
  · exact ⟨createRow ctx id record now (c + 1),
      List.mem_append_right _ (List.mem_singleton_self _), rfl, rfl⟩

/-- Claim C4 witness: instantiating the round-trip theorem at a concrete create. -/
theorem c4_create_roundtrip_witness :
    ∃ s', create ctxW sW "rec" 100 = (.ok "g1", s') ∧
      dbExists s' "g1" = true ∧
      get_by_id ctxW s' "g1" =
        (match ctxW.conv.local_to_native "Lrec" with
         | .ok n => .ok (some n)
         | .error e => .err e) ∧
      ∃ r', r' ∈ s'.rec_local ∧ r'.guid = "g1" ∧ r'.sync_status = newCode :=
  c4_create_roundtrip ctxW sW "rec" 100 "g1" "Lrec" 5 rfl (by decide)
    (by decide) (by decide) (by decide) (by decide)

/-- Claim C5: create on a native record whose converted guid already names a live
record fails with IdNotUnique and returns the state unchanged. -/
theorem c5_create_id_not_unique (ctx : RemergeCtx) (s : DbState)
    (native : NativeRecord) (now : Int) (id : String) (record : LocalRecord)
    (hcv : ctx.conv.native_to_local_creation native = .ok (id, record))
    (hex : dbExists s id = true) :
    create ctx s native now = (.err .idNotUnique, s) := by
  unfold create
  simp [hcv, hex]

/-- Claim C5 witness: creating the same record twice fails the second time with
IdNotUnique and leaves the state of the first create unchanged. -/
theorem c5_create_id_not_unique_witness :
    create ctxW sOneW "rec" 100 = (.err .idNotUnique, sOneW) :=
  c5_create_id_not_unique ctxW sOneW "rec" 100 "g1" "Lrec" rfl (by decide)

/-- Claim C6: the change counter is bumped by exactly one in the same state change
as each committed create, update or delete, never decreases, and a negative
or overflowing stored value is a loud corruption abort rather than a
returned error. -/
theorem c6_change_counter (ctx : RemergeCtx) (s : DbState) (native : NativeRecord)
    (id : String) (now : Int) (c : Int) :
    (s.meta.change_counter = some c → 0 ≤ c → c < i64Max →
      counter_bump s =
        .ok (c + 1, { s with meta := { s.meta with change_counter := some (c + 1) } })) ∧
    (s.meta.change_counter = some c → c < 0 →
      counter_bump s = .corrupt "negative global change counter") ∧
    (s.meta.change_counter = some c → i64Max ≤ c →
      counter_bump s = .corrupt "i64 overflow") ∧
    (∀ g s', create ctx s native now = (.ok g, s') →
      s.meta.change_counter = some c → s'.meta.change_counter = some (c + 1)) ∧
    (∀ s', update_record ctx s native now = (.ok (), s') →
      s.meta.change_counter = some c → s'.meta.change_counter = some (c + 1)) ∧
    (∀ s', delete_by_id ctx s id now = (.ok true, s') →
      s.meta.change_counter = some c → s'.meta.change_counter = some (c + 1)) ∧
    counterNondecreasing s (create ctx s native now).2 ∧
    counterNondecreasing s (update_record ctx s native now).2 ∧
    counterNondecreasing s (delete_by_id ctx s id now).2 := by
  have hpos : (0 : Int) < i64Max := by norm_num [i64Max]
  refine ⟨?_, ?_, ?_, ?_, ?_, ?_, ?_, ?_, ?_⟩
  · exact fun hcc h0 hlt => counter_bump_eq_ok hcc h0 hlt
  · intro hcc h1
    unfold counter_bump
    simp only [hcc]
    rw [if_pos h1]
  · intro hcc h1
    unfold counter_bump
    simp only [hcc]
    rw [if_neg (by omega), if_pos h1]
  · intro g s' hok hcc
    rcases create_cases ctx s native now with ⟨e, heq⟩ | ⟨m, heq⟩ |
      ⟨id0, rec, c0, heq, hcc0, _, _⟩
    · rw [heq] at hok
      exact Outcome.noConfusion (congrArg Prod.fst hok)
    · rw [heq] at hok
      exact Outcome.noConfusion (congrArg Prod.fst hok)
    · rw [heq] at hok
      have hc0 : c0 = c := Option.some.inj (hcc0.symm.trans hcc)
      injection hok with h1 h2
      rw [← h2, ← hc0]
  · intro s' hok hcc
    rcases update_cases ctx s native now with ⟨e, heq⟩ | ⟨m, heq⟩ |
      ⟨g, rec, vc, c0, s'₀, heq, hcc0, _, _, hmeta, _, _, _⟩
    · rw [heq] at hok
      exact Outcome.noConfusion (congrArg Prod.fst hok)
    · rw [heq] at hok
      exact Outcome.noConfusion (congrArg Prod.fst hok)
    · rw [heq] at hok
      have hc0 : c0 = c := Option.some.inj (hcc0.symm.trans hcc)
      injection hok with h1 h2
      rw [← h2, hmeta, ← hc0]
  · intro s' hok hcc
    rcases delete_cases ctx s id now with ⟨e, heq⟩ | ⟨m, heq⟩ | heq |
      ⟨c0, vc, s'₀, heq, hcc0, _, _, _, _, hmeta, _⟩
    · rw [heq] at hok
      exact Outcome.noConfusion (congrArg Prod.fst hok)
    · rw [heq] at hok
      exact Outcome.noConfusion (congrArg Prod.fst hok)
    · rw [heq] at hok
      exact Bool.noConfusion (Outcome.ok.inj (congrArg Prod.fst hok))
    · rw [heq] at hok
      have hc0 : c0 = c := Option.some.inj (hcc0.symm.trans hcc)
      injection hok with h1 h2
      rw [← h2, hmeta, ← hc0]
  · intro a b ha hb
    rcases create_cases ctx s native now with ⟨e, heq⟩ | ⟨m, heq⟩ |
      ⟨id0, rec, c0, heq, hcc0, h00, _⟩ <;> rw [heq] at hb
    · exact le_of_eq (Option.some.inj (ha.symm.trans hb))
    · exact le_of_eq (Option.some.inj (ha.symm.trans hb))
    · have ha0 : a = c0 := Option.some.inj (ha.symm.trans hcc0)
      have hb0 : b = c0 + 1 := Option.some.inj hb.symm
      omega
  · intro a b ha hb
    rcases update_cases ctx s native now with ⟨e, heq⟩ | ⟨m, heq⟩ |
      ⟨g, rec, vc, c0, s'₀, heq, hcc0, h00, _, hmeta, _, _, _⟩ <;> rw [heq] at hb
    · exact le_of_eq (Option.some.inj (ha.symm.trans hb))
    · exact le_of_eq (Option.some.inj (ha.symm.trans hb))
    · rw [hmeta] at hb
      have ha0 : a = c0 := Option.some.inj (ha.symm.trans hcc0)
      have hb0 : b = c0 + 1 := Option.some.inj hb.symm
      omega
  · intro a b ha hb
    rcases delete_cases ctx s id now with ⟨e, heq⟩ | ⟨m, heq⟩ | heq |
      ⟨c0, vc, s'₀, heq, hcc0, h00, _, _, _, hmeta, _⟩ <;> rw [heq] at hb
    · exact le_of_eq (Option.some.inj (ha.symm.trans hb))
    · exact le_of_eq (Option.some.inj (ha.symm.trans hb))
    · exact le_of_eq (Option.some.inj (ha.symm.trans hb))
    · rw [hmeta] at hb
      have ha0 : a = c0 := Option.some.inj (ha.symm.trans hcc0)
      have hb0 : b = c0 + 1 := Option.some.inj hb.symm
      omega

/-- Claim C6 witness: bumping the concrete counter 5 yields 6 and persists it. -/
theorem c6_change_counter_witness :
    counter_bump sW = .ok (6, { sW with meta := { sW.meta with change_counter := some 6 } }) :=
  (c6_change_counter ctxW sW "rec" "g1" 100 5).1 rfl (by decide) (by decide)

/-- Claim C7: exists and get_by_id agree on the visibility rule, overlay first and
then the non-overridden mirror, provided no mirror row stores a NULL
is_overridden flag (the two queries encode the not-overridden test
differently and diverge on NULL) and the local-to-native conversion
succeeds. -/
theorem c7_exists_iff_get_by_id (ctx : RemergeCtx) (s : DbState) (id : String)
    (hwf : ∀ m ∈ s.rec_mirror, m.is_overridden ≠ none)
    (hconv : ∀ r, ∃ n, ctx.conv.local_to_native r = .ok n) :
    (dbExists s id = true ↔ ∃ n, get_by_id ctx s id = .ok (some n)) := by
  have hlocal : (∃ n, get_by_id ctx s id = .ok (some n)) ↔
      (get_local_by_id s id).isSome = true := by
    unfold get_by_id
    cases hg : get_local_by_id s id with
    | none => simp
    | some v =>
      obtain ⟨n, hn⟩ := hconv v
      simp [hn]
  rw [hlocal]
  unfold dbExists get_local_by_id
  cases hf : s.rec_local.find? (fun r => r.guid == id && !r.is_deleted) with
  | some r =>
    have hany : s.rec_local.any (fun r => r.guid == id && !r.is_deleted) = true :=
      List.any_eq_true.mpr ⟨r, List.mem_of_find?_eq_some hf,
        by simpa using List.find?_some hf⟩
    simp [hany]
  | none =>
    have hany : s.rec_local.any (fun r => r.guid == id && !r.is_deleted) = false := by
      rw [List.any_eq_false]
      intro x hx
      exact List.find?_eq_none.mp hf x hx
    simp only [hany, Bool.false_or]
    constructor
    · intro h2
      obtain ⟨m, hm, hpm⟩ := List.any_eq_true.mp h2
      have hg := Bool.and_elim_left hpm
      have hne := Bool.and_elim_right hpm
      have hnn := hwf m hm
      have hfalse : m.is_overridden = some false := by
        cases hov : m.is_overridden with
        | none => exact absurd hov hnn
        | some b =>
          cases b with
          | false => rfl
          | true =>
            rw [hov] at hne
            simp at hne
      have hsome : (s.rec_mirror.find?
          (fun m => m.guid == id && m.is_overridden == some false)).isSome = true := by
        rw [List.find?_isSome]
        exact ⟨m, hm, by rw [hfalse]; simp [hg]⟩
      cases hfm : s.rec_mirror.find?
          (fun m => m.guid == id && m.is_overridden == some false) with
      | none => rw [hfm] at hsome; exact Bool.noConfusion hsome
      | some m0 => simp
    · intro h2
      cases hfm : s.rec_mirror.find?
          (fun m => m.guid == id && m.is_overridden == some false) with
      | none =>
        rw [hfm] at h2
        exact Bool.noConfusion h2
      | some m =>
        have hpm : (m.guid == id && m.is_overridden == some false) = true := by
          simpa using List.find?_some hfm
        have hmem := List.mem_of_find?_eq_some hfm
        have hg := Bool.and_elim_left hpm
        have hov : m.is_overridden = some false := by
          simpa using Bool.and_elim_right hpm
        rw [List.any_eq_true]
        exact ⟨m, hmem, by rw [hov]; simp [hg]⟩

/-- Claim C7 witness: the equivalence instantiated at the state holding one
non-overridden mirror row. -/
theorem c7_exists_iff_get_by_id_witness :
    dbExists sMirW "g1" = true ↔ ∃ n, get_by_id ctxW sMirW "g1" = .ok (some n) :=
  c7_exists_iff_get_by_id ctxW sMirW "g1" (by decide) (fun r => ⟨"N" ++ r, rfl⟩)

/-- Claim C1 witness: after deleting the freshly created record, the surviving
overlay row for its guid sits at status Changed, at least Changed as the
theorem states. -/
theorem c1_sync_status_monotone_witness :
    changedCode ≤ (OverlayRow.mk "g1" (some "1") emptyRecordData 102 true 1
      [("me", 7)] (some "me")).sync_status :=
  (c1_sync_status_monotone ctxW sOneW "rec" "g1" 102).2.2.2.2
    (delete_by_id ctxW sOneW "g1" 102).2 (by decide)
    (OverlayRow.mk "g1" (some "1") emptyRecordData 102 true 1 [("me", 7)] (some "me"))
    (by decide) (by decide)

/-- Claim C2 witness: the delete theorem instantiated at the state holding one
created record. -/
theorem c2_delete_by_id_semantics_witness :
    ∃ s', delete_by_id ctxW sOneW "g1" 102 = (.ok true, s') ∧
      dbExists s' "g1" = false ∧
      get_local_by_id s' "g1" = none ∧
      get_by_id ctxW s' "g1" = .ok none ∧
      delete_by_id ctxW s' "g1" 103 = (.ok false, s') ∧
      ∃ r', r' ∈ s'.rec_local ∧ r'.guid = "g1" ∧ r'.is_deleted = true :=
  (c2_delete_by_id_semantics ctxW sOneW "g1" 102 103 6).2 (by decide) (by decide)
    (by decide) (by decide)

/-- Claim C8: on first run, load_or_bootstrap stores the generated client id,
inserts the native schema as the only schema record, sets both stored
schema versions to the native version, initializes the change counter to 1,
and returns a bundle whose local schema is the native schema. -/
theorem c8_bootstrap_first_run (p : String → Except RError RecordSchema)
    (s : DbState) (native : RecordSchema) (freshGuid : String)
    (hname : s.meta.collection_name = none) (hschemas : s.schemas = []) :
    load_or_bootstrap p s native freshGuid =
      (.ok ({ collection_name := native.name, localSchema := native, native := native },
        freshGuid),
       { s with
           schemas := [{ is_legacy := native.legacy, version := native.version,
                         required_version := native.required_version,
                         schema_text := native.source }]
           meta := { s.meta with
             own_client_id := some freshGuid
             local_schema_version := some native.version
             native_schema_version := some native.version
             collection_name := some native.name
             change_counter := some 1 } }) := by
  unfold load_or_bootstrap
  simp only [hname]
  unfold bootstrap
  rw [hschemas]
  simp only [List.any_nil, Bool.false_eq_true, if_false, List.nil_append]

/-- Claim C8 witness: bootstrapping the empty state with the concrete schema. -/
theorem c8_bootstrap_first_run_witness :
    load_or_bootstrap parseW sFreshW schW "fresh" =
      (.ok ({ collection_name := "coll", localSchema := schW, native := schW }, "fresh"),
       { sFreshW with
           schemas := [{ is_legacy := false, version := "1", required_version := "1",
                         schema_text := "src" }]
           meta := { metaNoneW with
             own_client_id := some "fresh"
             local_schema_version := some "1"
             native_schema_version := some "1"
             collection_name := some "coll"
             change_counter := some 1 } }) :=
  c8_bootstrap_first_run parseW sFreshW schW "fresh" rfl rfl

/-- Claim C9 counterexample: reloading with a bumped native version does not leave
every metadata entry other than the native-schema-version unchanged - the
stored sync-lockout marker is cleared by the same call. -/
theorem c9_reload_counterexample :
    (load_or_bootstrap parseW sReloadW schW2 "fresh").2.meta.sync_native_version_threshold
      ≠ sReloadW.meta.sync_native_version_threshold := by
  decide

/-- Claim C9 amended: on reload with a differing native version, load_or_bootstrap
updates the stored native-schema-version and unconditionally clears any
sync-lockout marker; the local-schema-version, the schema records and all
record rows are left unchanged. -/
theorem c9_reload_updates_native_version (p : String → Except RError RecordSchema)
    (s : DbState) (native : RecordSchema) (freshGuid : String)
    (name local_ver native_ver cid : String) (row : SchemaRow) (parsed : RecordSchema)
    (hname : s.meta.collection_name = some name)
    (hmatch : name = native.name)
    (hlv : s.meta.local_schema_version = some local_ver)
    (hnv : s.meta.native_schema_version = some native_ver)
    (hcid : s.meta.own_client_id = some cid)
    (hdiff : native_ver ≠ native.version)
    (hrow : s.schemas.find? (fun r => r.version == local_ver) = some row)
    (hparse : p row.schema_text = .ok parsed) :
    load_or_bootstrap p s native freshGuid =
      (.ok ({ collection_name := name, localSchema := parsed, native := native }, cid),
       { s with meta := { s.meta with
           native_schema_version := some native.version
           sync_native_version_threshold := none } }) := by
  subst hmatch
  unfold load_or_bootstrap
  simp only [hname, hlv, hnv, hcid, bne_self_eq_false, Bool.false_eq_true, if_false]
  rw [if_pos (bne_iff_ne.mpr hdiff)]
  simp only [hrow, hparse]

/-- Claim C9 witness: the amended theorem instantiated at the concrete reload
state with native version 2 over stored version 1. -/
theorem c9_reload_updates_native_version_witness :
    load_or_bootstrap parseW sReloadW schW2 "fresh" =
      (.ok ({ collection_name := "coll", localSchema := schW, native := schW2 }, "me"),
       { sReloadW with meta := { sReloadW.meta with
           native_schema_version := some "2"
           sync_native_version_threshold := none } }) :=
  c9_reload_updates_native_version parseW sReloadW schW2 "fresh" "coll" "1" "1" "me"
    schRowW schW rfl rfl rfl rfl rfl (by decide) (by decide) rfl

/-- Claim C10: in_sync_lockout returns false with no stored marker; deletes an
unparsable marker and returns false without error; and for a parsed
requirement returns true exactly when the native schema version fails to
satisfy it. -/
theorem c10_in_sync_lockout (ctx : RemergeCtx) (s : DbState) (v : String)
    (req : VersionReq) :
    (s.meta.sync_native_version_threshold = none →
      in_sync_lockout ctx s = (.ok false, s)) ∧
    (s.meta.sync_native_version_threshold = some v → ctx.parseReq v = none →
      in_sync_lockout ctx s =
        (.ok false,
          { s with meta := { s.meta with sync_native_version_threshold := none } })) ∧
    (s.meta.sync_native_version_threshold = some v → ctx.parseReq v = some req →
      in_sync_lockout ctx s = (.ok (!req.matchesVersion ctx.native.version), s)) := by
  refine ⟨?_, ?_, ?_⟩
  · intro h1
    unfold in_sync_lockout
    simp only [h1]
  · intro h1 h2
    unfold in_sync_lockout
    simp only [h1, h2]
  · intro h1 h2
    unfold in_sync_lockout
    simp only [h1, h2]

/-- Claim C10 witness: an unparsable stored marker is deleted and reported as no
lockout. -/
theorem c10_in_sync_lockout_witness :
    in_sync_lockout ctxW sLockW =
      (.ok false, { sLockW with meta := { sLockW.meta with
        sync_native_version_threshold := none } }) :=
  (c10_in_sync_lockout ctxW sLockW "x" { matchesVersion := fun _ => true }).2.1 rfl rfl

end Remerge
